import Mathlib

/-!
Verification of the parkour-analyzer log-watching core
(`src/parkour-tauri/src-tauri/src/lib.rs`).

The Rust source is shallowly embedded below:

* `get_log_path` / `get_default_paths` are modelled over an explicit
  platform tag (`OS`) and an environment record (`Env`) holding the
  outcomes of `std::env::var("APPDATA")`, `dirs::home_dir()` and the
  filesystem existence predicate `Path::exists`.  `PathBuf::join` for a
  relative right-hand side is modelled by `joinPath`, including the
  rule that a separator is inserted only when the base is non-empty and
  does not already end in a separator, and `PathBuf::push`'s special
  case that no separator is inserted when the base is exactly a Windows
  drive prefix such as `C:`.
* `hash_content` feeds data into `std::collections::hash_map::DefaultHasher`.
  `DefaultHasher::new()` is deterministic and its `finish` value is a pure
  function of the sequence of write operations applied, so the hasher is
  modelled by the trace of write operations (`hash_content_ops`) and the
  64-bit result as an arbitrary pure function `finish` of that trace.
  Hashing a `usize` performs `write_usize`; hashing a `&[u8]` slice writes
  its length prefix (`write_usize`) followed by the bytes.
* The steady state of `start_watcher`'s loop (lines 136-159) is modelled
  by `watchStep`: one iteration, taking the current time, the outcome of
  `fs::read_to_string` (consulted only when the code actually reads), the
  session state (`last_hash`, `last_emit`) and the result of
  `rx.recv_timeout` as inputs, and returning the new state, the emissions,
  whether a read was attempted and whether the loop exits.
  The Searching to Watching transition (lines 108-114 together with the
  initialisation of `last_emit` at line 133) is modelled by `startWatching`.
* `watch_path` (lines 87-96) is modelled by `watch_path` returning the
  command result paired with the emissions performed.

Strings are Lean `String`s; byte strings for the hash model are `List Nat`;
times (`Instant`) are `Nat`, with `elapsed` as truncated subtraction.
-/

/-- Platform tag for the `cfg!(target_os = ...)` compile-time branching.
`other` covers the source's final `else` branch (any non-windows,
non-macos target). -/
inductive OS where
  | windows
  | macos
  | other
deriving DecidableEq, Repr

/-- Environment of one run: outcome of `std::env::var("APPDATA")`,
outcome of `dirs::home_dir()` (rendered as a string), and the filesystem
existence predicate `Path::exists`. -/
structure Env where
  appdata : Option String
  home : Option String
  pathExists : String → Bool

/-- Is `c` a path separator on platform `os`?  On Windows both `\` and `/`
separate components; elsewhere only `/` does. -/
def isSep (os : OS) (c : Char) : Bool :=
  match os with
  | .windows => c == '\\' || c == '/'
  | _ => c == '/'

/-- The platform's primary separator (`std::path::MAIN_SEPARATOR`). -/
def mainSep (os : OS) : String :=
  match os with
  | .windows => "\\"
  | _ => "/"

/-- Is `s` exactly a Windows drive prefix (an ASCII letter followed by
`:`, e.g. `C:`)?  Rust's prefix parser accepts exactly
`is_ascii_alphabetic` drive letters. -/
def isDrivePrefix (s : String) : Bool :=
  match s.toList with
  | [c, d] => c.isAlpha && d == ':'
  | _ => false

/-- Model of `PathBuf::from(base).join(rel)` / `home.join(rel)` for a
*relative* `rel` (every `rel` in this program is a fixed relative
literal): a separator is pushed first exactly when the base is non-empty,
does not already end in a separator, and — `PathBuf::push`'s special case
— is not exactly a Windows drive prefix such as `C:` (for which `need_sep`
is forced off). -/
def joinPath (os : OS) (base rel : String) : String :=
  if base.isEmpty then rel
  else if os == OS.windows && isDrivePrefix base then base ++ rel
  else if isSep os base.back then base ++ rel
  else base ++ mainSep os ++ rel

/-- The `candidates` vector built by `get_log_path` (lines 9-27), rendered
as strings via `to_string_lossy`; `none` when the `?` on the
environment/home lookup makes `get_log_path` return early. -/
def log_path_candidates (os : OS) (env : Env) : Option (List String) :=
  match os with
  | .windows =>
    env.appdata.map fun appdata =>
      [joinPath os appdata ".minecraft\\logs\\latest.log",
       joinPath os appdata ".lunarclient\\offline\\multiver\\logs\\latest.log"]
  | .macos =>
    env.home.map fun home =>
      [joinPath os home "Library/Application Support/minecraft/logs/latest.log",
       joinPath os home ".lunarclient/offline/multiver/logs/latest.log"]
  | .other =>
    env.home.map fun home =>
      [joinPath os home ".minecraft/logs/latest.log",
       joinPath os home ".lunarclient/offline/multiver/logs/latest.log"]

/-- `get_log_path` (lines 8-29): first candidate that exists, `none` when
the environment lookup fails or no candidate exists. -/
def get_log_path (os : OS) (env : Env) : Option String :=
  (log_path_candidates os env).bind fun candidates =>
    candidates.find? env.pathExists

/-- `get_default_paths` (lines 57-79): the diagnostic candidate list built
with `format!`, which always inserts exactly one separator. -/
def get_default_paths (os : OS) (env : Env) : List String :=
  match os with
  | .windows =>
    match env.appdata with
    | some appdata =>
      [appdata ++ "\\.minecraft\\logs\\latest.log",
       appdata ++ "\\.lunarclient\\offline\\multiver\\logs\\latest.log"]
    | none => []
  | .macos =>
    match env.home with
    | some home =>
      [home ++ "/Library/Application Support/minecraft/logs/latest.log",
       home ++ "/.lunarclient/offline/multiver/logs/latest.log"]
    | none => []
  | .other =>
    match env.home with
    | some home =>
      [home ++ "/.minecraft/logs/latest.log",
       home ++ "/.lunarclient/offline/multiver/logs/latest.log"]
    | none => []

/-- Suffix of the primary game-client candidate path (everything after the
environment-provided base) for each platform. -/
def primaryTail (os : OS) : String :=
  match os with
  | .windows => "\\.minecraft\\logs\\latest.log"
  | .macos => "/Library/Application Support/minecraft/logs/latest.log"
  | .other => "/.minecraft/logs/latest.log"

/-- Suffix of the alternate-launcher candidate path for each platform. -/
def altTail (os : OS) : String :=
  match os with
  | .windows => "\\.lunarclient\\offline\\multiver\\logs\\latest.log"
  | _ => "/.lunarclient/offline/multiver/logs/latest.log"

/-- The environment value `get_log_path` and `get_default_paths` root their
candidates under: `APPDATA` on Windows, the home directory elsewhere. -/
def envBase (os : OS) (env : Env) : Option String :=
  match os with
  | .windows => env.appdata
  | _ => env.home

/-- One write operation applied to `DefaultHasher`.  `writeUsize n` is
`Hasher::write_usize(n)` (used both by `usize::hash` and as the length
prefix of a slice hash); `writeBytes bs` is `Hasher::write(bs)`. -/
inductive HashOp where
  | writeUsize (n : Nat)
  | writeBytes (bs : List Nat)
deriving DecidableEq, Repr

/-- Hashing a `&[u8]` slice: length prefix, then the bytes. -/
def sliceHashOps (bs : List Nat) : List HashOp :=
  [HashOp.writeUsize bs.length, HashOp.writeBytes bs]

/-- The trace of write operations `hash_content` (lines 31-43) applies to
the hasher on input `s` (the UTF-8 bytes of the argument): hash the length,
then either the first 512 and last 512 bytes (when the length exceeds 1024)
or the whole byte slice. -/
def hash_content_ops (s : List Nat) : List HashOp :=
  HashOp.writeUsize s.length ::
    (if 1024 < s.length then
      sliceHashOps (s.take 512) ++ sliceHashOps (s.drop (s.length - 512))
    else
      sliceHashOps s)

/-- `hash_content` (lines 31-43).  `finish` is the (deterministic, pure)
map from the applied write operations to `DefaultHasher::finish()`; the
model is parametric in it, so theorems hold for the actual SipHash-1-3
instance. -/
def hash_content (finish : List HashOp → Nat) (s : List Nat) : Nat :=
  finish (hash_content_ops s)

/-- A filesystem path as the watch loop sees it: the loop only ever
inspects `Path::file_name()`, modelled as the optional final component. -/
structure FsPath where
  fileName : Option String
deriving DecidableEq, Repr

/-- A `notify::Event`, of which the loop only inspects `paths`. -/
structure Event where
  paths : List FsPath
deriving DecidableEq, Repr

/-- Outcome of one `rx.recv_timeout(Duration::from_secs(3))` call. -/
inductive RecvResult where
  | ok (event : Event)
  | errEvent
  | timeout
  | disconnected
deriving DecidableEq, Repr

/-- Notifications emitted through the Tauri `AppHandle` (the EventSink). -/
inductive Emission where
  | logLocation (path : String)
  | logUpdate (content : String)
  | logError (message : String)
deriving DecidableEq, Repr

/-- Mutable session state of the steady loop: `last_hash` (line 110) and
`last_emit` (line 133), the latter as an absolute time. -/
structure WatchState where
  last_hash : Nat
  last_emit : Nat
deriving DecidableEq, Repr

/-- Result of one loop iteration: the session state afterwards, the
emissions performed (in order), whether `fs::read_to_string` was attempted,
and whether the loop `break`s. -/
structure StepOut where
  state : WatchState
  emitted : List Emission
  didRead : Bool
  exits : Bool
deriving DecidableEq, Repr

/-- The `is_log` test (lines 139-142): some event path has file name
`latest.log`. -/
def eventIsLog (ev : Event) : Bool :=
  ev.paths.any fun p => (p.fileName.map fun f => f == "latest.log").getD false

/-- One iteration of the steady loop (lines 136-159).  `now` is the current
time (`Instant::now()` / the reference point of `last_emit.elapsed()`);
`readResult` is the outcome `fs::read_to_string(&path)` would return,
consulted only when the code reaches the read. -/
def watchStep (hash : String → Nat) (debounce : Nat) (now : Nat)
    (readResult : Option String) (s : WatchState) (r : RecvResult) : StepOut :=
  match r with
  | .ok ev =>
    if eventIsLog ev && decide (debounce ≤ now - s.last_emit) then
      match readResult with
      | some content =>
        let new_hash := hash content
        if new_hash ≠ s.last_hash then
          ⟨⟨new_hash, now⟩, [Emission.logUpdate content], true, false⟩
        else
          ⟨s, [], true, false⟩
      | none => ⟨s, [], true, false⟩
    else
      ⟨s, [], false, false⟩
  | .errEvent => ⟨s, [], false, false⟩
  | .timeout => ⟨s, [], false, false⟩
  | .disconnected => ⟨s, [], false, true⟩

/-- The Searching to Watching transition (lines 108-114 and 133): emit the
resolved location, do the initial read, and on success store the content's
fingerprint and emit the content unconditionally.  `startTime` is the
`Instant::now()` of line 133 initialising `last_emit`. -/
def startWatching (hash : String → Nat) (path : String) (startTime : Nat)
    (initRead : Option String) : WatchState × List Emission :=
  match initRead with
  | some content =>
    (⟨hash content, startTime⟩,
     [Emission.logLocation path, Emission.logUpdate content])
  | none => (⟨0, startTime⟩, [Emission.logLocation path])

/-- Input of one steady-loop iteration. -/
structure StepInput where
  now : Nat
  readResult : Option String
  recv : RecvResult
deriving Repr

/-- Run the steady loop over a list of iteration inputs, collecting all
emissions; stops early when an iteration exits the loop. -/
def runLoop (hash : String → Nat) (debounce : Nat) :
    WatchState → List StepInput → WatchState × List Emission
  | s, [] => (s, [])
  | s, i :: is =>
    let out := watchStep hash debounce i.now i.readResult s i.recv
    if out.exits then (out.state, out.emitted)
    else
      let rest := runLoop hash debounce out.state is
      (rest.1, out.emitted ++ rest.2)

/-- The payload of the last `log-update` emission in a list, if any. -/
def lastUpdate : List Emission → Option String
  | [] => none
  | e :: es =>
    match lastUpdate es with
    | some c => some c
    | none =>
      match e with
      | .logUpdate c => some c
      | _ => none

/-- Is some `log-update` emission in the list? -/
def emitsUpdate (ems : List Emission) : Bool :=
  ems.any fun e =>
    match e with
    | .logUpdate _ => true
    | _ => false

/-- `watch_path` (lines 87-96): returns the command result together with
the emissions performed, in order.  `fsExists` models `Path::exists` and
`readResult` the outcome of `fs::read_to_string(&path)`. -/
def watch_path (fsExists : String → Bool) (readResult : Option String)
    (path : String) : Except String Unit × List Emission :=
  if !fsExists path then
    (Except.error "File not found", [])
  else
    (Except.ok (),
     Emission.logLocation path ::
       (match readResult with
        | some content => [Emission.logUpdate content]
        | none => []))

/-! ## Helper lemmas -/

/-- The `exits` flag of one loop iteration is set exactly on channel
disconnection. -/
theorem watchStep_exits_eq (hash : String → Nat) (debounce now : Nat)
    (readResult : Option String) (s : WatchState) (r : RecvResult) :
    (watchStep hash debounce now readResult s r).exits = decide (r = RecvResult.disconnected) := by
  cases r with
  | ok ev =>
    simp only [watchStep]
    split
    · cases readResult with
      | some content => by_cases h : hash content ≠ s.last_hash <;> simp [h]
      | none => simp
    · simp
  | errEvent => simp [watchStep]
  | timeout => simp [watchStep]
  | disconnected => simp [watchStep]

/-- After one iteration, `last_hash` is the hash of the content emitted in
that iteration, or untouched when the iteration emitted no update. -/
theorem watchStep_last_hash (hash : String → Nat) (debounce now : Nat)
    (readResult : Option String) (s : WatchState) (r : RecvResult) :
    (watchStep hash debounce now readResult s r).state.last_hash =
      match lastUpdate (watchStep hash debounce now readResult s r).emitted with
      | some c => hash c
      | none => s.last_hash := by
  cases r with
  | ok ev =>
    simp only [watchStep]
    split
    · cases readResult with
      | some content =>
        by_cases h : hash content ≠ s.last_hash <;> simp [h, lastUpdate]
      | none => simp [lastUpdate]
    · simp [lastUpdate]
  | errEvent => simp [watchStep, lastUpdate]
  | timeout => simp [watchStep, lastUpdate]
  | disconnected => simp [watchStep, lastUpdate]

/-- `lastUpdate` over an append prefers the second list. -/
theorem lastUpdate_append (a b : List Emission) :
    lastUpdate (a ++ b) =
      match lastUpdate b with
      | some c => some c
      | none => lastUpdate a := by
  induction a with
  | nil => cases h : lastUpdate b <;> simp [lastUpdate, h]
  | cons e es ih =>
    simp only [List.cons_append, lastUpdate]
    cases h : lastUpdate b <;> cases h₂ : lastUpdate es <;>
      simp [lastUpdate, ih, h, h₂]

/-- `last_hash` after running the loop equals the hash of the last emitted
update, or the starting value when no update was emitted. -/
theorem runLoop_last_hash (hash : String → Nat) (debounce : Nat) :
    ∀ (inputs : List StepInput) (s : WatchState),
      (runLoop hash debounce s inputs).1.last_hash =
        match lastUpdate (runLoop hash debounce s inputs).2 with
        | some c => hash c
        | none => s.last_hash
  | [], s => by simp [runLoop, lastUpdate]
  | i :: is, s => by
    simp only [runLoop]
    split
    · exact watchStep_last_hash hash debounce i.now i.readResult s i.recv
    · have ih := runLoop_last_hash hash debounce is
        (watchStep hash debounce i.now i.readResult s i.recv).state
      have hstep := watchStep_last_hash hash debounce i.now i.readResult s i.recv
      simp only [lastUpdate_append]
      cases h₁ : lastUpdate (runLoop hash debounce
          (watchStep hash debounce i.now i.readResult s i.recv).state is).2 with
      | some c => simpa [h₁] using ih
      | none =>
        rw [h₁] at ih
        simp only [ih]
        exact hstep

/-- If an iteration emits `log-update u`, the iteration actually read `u`
and stored its hash with the iteration's timestamp. -/
theorem watchStep_update_mem (hash : String → Nat) (debounce now : Nat)
    (readResult : Option String) (s : WatchState) (r : RecvResult) (u : String)
    (h : Emission.logUpdate u ∈ (watchStep hash debounce now readResult s r).emitted) :
    readResult = some u ∧
    (watchStep hash debounce now readResult s r).state = ⟨hash u, now⟩ ∧
    hash u ≠ s.last_hash := by
  cases r with
  | ok ev =>
    revert h
    simp only [watchStep]
    split
    · cases readResult with
      | some content =>
        by_cases hne : hash content ≠ s.last_hash <;> simp [hne]
        intro hu
        subst hu
        exact ⟨rfl, rfl, hne⟩
      | none => simp
    · simp
  | errEvent => simp [watchStep] at h
  | timeout => simp [watchStep] at h
  | disconnected => simp [watchStep] at h

/-- When the freshly read content hashes to the stored fingerprint, an
iteration neither emits nor changes state, whatever the received signal. -/
theorem watchStep_same_hash (hash : String → Nat) (debounce now : Nat)
    (content : String) (s : WatchState) (r : RecvResult)
    (h : hash content = s.last_hash) :
    (watchStep hash debounce now (some content) s r).emitted = [] ∧
    (watchStep hash debounce now (some content) s r).state = s := by
  cases r with
  | ok ev =>
    simp only [watchStep]
    split
    · simp [h]
    · exact ⟨rfl, rfl⟩
  | errEvent => exact ⟨rfl, rfl⟩
  | timeout => exact ⟨rfl, rfl⟩
  | disconnected => exact ⟨rfl, rfl⟩

/-- A `log-update` is in the list iff `emitsUpdate` holds of it. -/
theorem emitsUpdate_iff (ems : List Emission) :
    emitsUpdate ems = true ↔ ∃ u, Emission.logUpdate u ∈ ems := by
  induction ems with
  | nil => simp [emitsUpdate]
  | cons e es ih =>
    cases e with
    | logLocation p =>
      simp only [emitsUpdate, List.any_cons] at ih ⊢
      simp [ih]
    | logUpdate c =>
      simp only [emitsUpdate, List.any_cons] at ih ⊢
      constructor
      · intro _; exact ⟨c, List.mem_cons_self _ _⟩
      · intro _; simp
    | logError m =>
      simp only [emitsUpdate, List.any_cons] at ih ⊢
      simp [ih]

/-! ## Claim theorems: the watch loop -/

/-- C1: In the steady loop, a change signal naming the watched log file
that arrives strictly inside the debounce window is swallowed — no read is
attempted, the session state is untouched, nothing is emitted and the loop
continues; a matching signal at or after the window boundary proceeds to
the read. -/
theorem debounce_swallows_early_signal (hash : String → Nat) (debounce now : Nat)
    (readResult : Option String) (s : WatchState) (ev : Event)
    (hlog : eventIsLog ev = true) :
    (now - s.last_emit < debounce →
      watchStep hash debounce now readResult s (RecvResult.ok ev) =
        ⟨s, [], false, false⟩) ∧
    (debounce ≤ now - s.last_emit →
      (watchStep hash debounce now readResult s (RecvResult.ok ev)).didRead = true) := by
  constructor
  · intro hlt
    have hnle : ¬ debounce ≤ now - s.last_emit := Nat.not_le.mpr hlt
    simp [watchStep, hlog, hnle]
  · intro hge
    simp only [watchStep]
    rw [if_pos (by simp [hlog, hge])]
    cases readResult with
    | some content => by_cases hne : hash content ≠ s.last_hash <;> simp [hne]
    | none => rfl

theorem debounce_swallows_early_signal_witness :
    watchStep (fun _ => 5) 2 11 (some "x") ⟨0, 10⟩
        (RecvResult.ok (Event.mk [FsPath.mk (some "latest.log")])) =
      ⟨⟨0, 10⟩, [], false, false⟩ ∧
    (watchStep (fun _ => 5) 2 12 (some "x") ⟨0, 10⟩
        (RecvResult.ok (Event.mk [FsPath.mk (some "latest.log")]))).didRead = true :=
  ⟨(debounce_swallows_early_signal (fun _ => 5) 2 11 (some "x") ⟨0, 10⟩
      (Event.mk [FsPath.mk (some "latest.log")]) (by decide)).1 (by decide),
   (debounce_swallows_early_signal (fun _ => 5) 2 12 (some "x") ⟨0, 10⟩
      (Event.mk [FsPath.mk (some "latest.log")]) (by decide)).2 (by decide)⟩

/-- C2: at every point after the Searching→Watching transition,
`last_hash` equals the fingerprint of the last content actually emitted to
the sink, or stays 0 when no content was ever emitted — reads whose content
was not emitted (in particular debounce-suppressed signals) never change
it. -/
theorem last_hash_tracks_emitted (hash : String → Nat) (debounce : Nat)
    (path : String) (startTime : Nat) (initRead : Option String)
    (inputs : List StepInput) :
    (runLoop hash debounce (startWatching hash path startTime initRead).1 inputs).1.last_hash =
      match lastUpdate ((startWatching hash path startTime initRead).2 ++
          (runLoop hash debounce (startWatching hash path startTime initRead).1 inputs).2) with
      | some c => hash c
      | none => 0 := by
  rw [lastUpdate_append]
  have hrun := runLoop_last_hash hash debounce inputs
    (startWatching hash path startTime initRead).1
  cases h : lastUpdate
      (runLoop hash debounce (startWatching hash path startTime initRead).1 inputs).2 with
  | some c => rw [h] at hrun; simpa using hrun
  | none =>
    rw [h] at hrun
    simp only [hrun]
    cases initRead <;> simp [startWatching, lastUpdate]

/-- C3: a qualifying signal whose read content hashes to the stored
fingerprint mutates no session state and emits nothing, and two
consecutive reads of identical content never both produce a `log-update`,
even outside the debounce window. -/
theorem unchanged_fingerprint_no_emit (hash : String → Nat)
    (debounce now t₁ t₂ : Nat) (content c : String) (s q : WatchState)
    (ev : Event) (r₁ r₂ : RecvResult)
    (hlog : eventIsLog ev = true) (helapsed : debounce ≤ now - s.last_emit)
    (hsame : hash content = s.last_hash) :
    watchStep hash debounce now (some content) s (RecvResult.ok ev) =
      ⟨s, [], true, false⟩ ∧
    ¬(emitsUpdate (watchStep hash debounce t₁ (some c) q r₁).emitted = true ∧
      emitsUpdate (watchStep hash debounce t₂ (some c)
        (watchStep hash debounce t₁ (some c) q r₁).state r₂).emitted = true) := by
  constructor
  · simp only [watchStep]
    rw [if_pos (by simp [hlog, helapsed])]
    simp [hsame]
  · rintro ⟨h₁, h₂⟩
    obtain ⟨u, hu⟩ := (emitsUpdate_iff _).mp h₁
    obtain ⟨hread, hstate, hneq⟩ :=
      watchStep_update_mem hash debounce t₁ (some c) q r₁ u hu
    obtain rfl : c = u := by injection hread
    obtain ⟨hemit, -⟩ :=
      watchStep_same_hash hash debounce t₂ c ⟨hash c, t₁⟩ r₂ rfl
    rw [hstate, hemit] at h₂
    simp [emitsUpdate] at h₂

theorem unchanged_fingerprint_no_emit_witness :
    watchStep (fun _ => 0) 2 5 (some "x") ⟨0, 0⟩
        (RecvResult.ok (Event.mk [FsPath.mk (some "latest.log")])) =
      ⟨⟨0, 0⟩, [], true, false⟩ ∧
    ¬(emitsUpdate (watchStep (fun _ => 0) 2 3 (some "y") ⟨0, 0⟩
        RecvResult.timeout).emitted = true ∧
      emitsUpdate (watchStep (fun _ => 0) 2 4 (some "y")
        (watchStep (fun _ => 0) 2 3 (some "y") ⟨0, 0⟩ RecvResult.timeout).state
        RecvResult.timeout).emitted = true) :=
  unchanged_fingerprint_no_emit (fun _ => 0) 2 5 3 4 "x" "y" ⟨0, 0⟩ ⟨0, 0⟩
    (Event.mk [FsPath.mk (some "latest.log")]) RecvResult.timeout RecvResult.timeout
    (by decide) (by decide) rfl

/-- C6: the Searching→Watching transition emits the location notification
first, and a successful initial read stores the content's fingerprint and
emits the content unconditionally — no debounce or fingerprint comparison
guards this first emission. -/
theorem initial_read_unconditional (hash : String → Nat) (path : String)
    (startTime : Nat) (initRead ir : Option String) (content : String)
    (hread : initRead = some content) :
    (startWatching hash path startTime ir).2.head? = some (Emission.logLocation path) ∧
    (startWatching hash path startTime initRead).1 = ⟨hash content, startTime⟩ ∧
    (startWatching hash path startTime initRead).2 =
      [Emission.logLocation path, Emission.logUpdate content] := by
  subst hread
  refine ⟨?_, rfl, rfl⟩
  cases ir <;> rfl

theorem initial_read_unconditional_witness :
    (startWatching (fun _ => 9) "p" 3 none).2.head? = some (Emission.logLocation "p") ∧
    (startWatching (fun _ => 9) "p" 3 (some "A")).1 = ⟨9, 3⟩ ∧
    (startWatching (fun _ => 9) "p" 3 (some "A")).2 =
      [Emission.logLocation "p", Emission.logUpdate "A"] :=
  initial_read_unconditional (fun _ => 9) "p" 3 (some "A") none "A" rfl

/-- C8: a notification-source error and a receive timeout each leave the
session state unchanged, emit nothing and keep the loop running; the loop
exits only when the channel disconnects, and that exit emits nothing. -/
theorem loop_exit_only_on_disconnect (hash : String → Nat) (debounce now : Nat)
    (readResult : Option String) (s : WatchState) (r : RecvResult)
    (hexit : (watchStep hash debounce now readResult s r).exits = true) :
    r = RecvResult.disconnected ∧
    watchStep hash debounce now readResult s RecvResult.errEvent = ⟨s, [], false, false⟩ ∧
    watchStep hash debounce now readResult s RecvResult.timeout = ⟨s, [], false, false⟩ ∧
    watchStep hash debounce now readResult s RecvResult.disconnected = ⟨s, [], false, true⟩ := by
  refine ⟨?_, rfl, rfl, rfl⟩
  have h := watchStep_exits_eq hash debounce now readResult s r
  rw [hexit] at h
  exact of_decide_eq_true h.symm

theorem loop_exit_only_on_disconnect_witness :
    RecvResult.disconnected = RecvResult.disconnected ∧
    watchStep (fun _ => 0) 2 0 none ⟨0, 0⟩ RecvResult.errEvent = ⟨⟨0, 0⟩, [], false, false⟩ ∧
    watchStep (fun _ => 0) 2 0 none ⟨0, 0⟩ RecvResult.timeout = ⟨⟨0, 0⟩, [], false, false⟩ ∧
    watchStep (fun _ => 0) 2 0 none ⟨0, 0⟩ RecvResult.disconnected = ⟨⟨0, 0⟩, [], false, true⟩ :=
  loop_exit_only_on_disconnect (fun _ => 0) 2 0 none ⟨0, 0⟩ RecvResult.disconnected rfl

/-! ## Claim theorems: fingerprint, probe command, candidate ordering -/

/-- C4: two byte strings longer than 1024 bytes with the same length, the
same first 512 bytes and the same last 512 bytes yield the same
fingerprint, and a byte string of at most 1024 bytes is hashed in full
(its length, the slice length prefix, then every byte). -/
theorem hash_head_tail_blind_spot (finish : List HashOp → Nat)
    (s₁ s₂ t : List Nat)
    (hlen : s₁.length = s₂.length) (hbig : 1024 < s₁.length)
    (hhead : s₁.take 512 = s₂.take 512)
    (htail : s₁.drop (s₁.length - 512) = s₂.drop (s₂.length - 512))
    (hsmall : t.length ≤ 1024) :
    hash_content finish s₁ = hash_content finish s₂ ∧
    hash_content_ops t =
      [HashOp.writeUsize t.length, HashOp.writeUsize t.length, HashOp.writeBytes t] := by
  constructor
  · unfold hash_content hash_content_ops
    rw [if_pos hbig, if_pos (hlen ▸ hbig), hhead, htail, hlen]
  · unfold hash_content_ops sliceHashOps
    rw [if_neg (by omega)]

/-- Byte string of 1025 zero bytes. -/
def blindSample₁ : List Nat := List.replicate 1025 0

/-- Byte string of length 1025 agreeing with `blindSample₁` except at the
middle byte. -/
def blindSample₂ : List Nat := List.replicate 512 0 ++ 1 :: List.replicate 512 0

/-- A sample `finish` function for witnesses. -/
def opsLen : List HashOp → Nat := List.length

set_option maxRecDepth 40000 in
theorem hash_head_tail_blind_spot_witness :
    hash_content opsLen blindSample₁ = hash_content opsLen blindSample₂ ∧
    hash_content_ops [7, 8] =
      [HashOp.writeUsize 2, HashOp.writeUsize 2, HashOp.writeBytes [7, 8]] :=
  hash_head_tail_blind_spot opsLen blindSample₁ blindSample₂ [7, 8]
    (by decide) (by decide) (by decide) (by decide) (by decide)

/-- C7: `watch_path` fails with the NotFound error exactly when the path
does not exist; on success the location notification is emitted first, a
content notification appears only when the file was readable, and it
follows the location notification. -/
theorem watch_path_notfound_and_order (fsExists : String → Bool)
    (readResult : Option String) (path : String) :
    ((watch_path fsExists readResult path).1 = Except.error "File not found" ↔
      fsExists path = false) ∧
    (fsExists path = false → (watch_path fsExists readResult path).2 = []) ∧
    (fsExists path = true →
      (watch_path fsExists readResult path).2.head? =
        some (Emission.logLocation path)) ∧
    (∀ c : String, Emission.logUpdate c ∈ (watch_path fsExists readResult path).2 →
      readResult = some c ∧
      (watch_path fsExists readResult path).2 =
        [Emission.logLocation path, Emission.logUpdate c]) := by
  refine ⟨?_, ?_, ?_, ?_⟩
  · by_cases hfs : fsExists path = true <;> simp [watch_path, hfs]
  · intro hfs; simp [watch_path, hfs]
  · intro hfs; simp [watch_path, hfs]
  · intro c hc
    by_cases hfs : fsExists path = true
    · cases hr : readResult with
      | some c₀ =>
        rw [hr] at hc
        simp [watch_path, hfs] at hc
        subst hc
        simp [watch_path, hfs]
      | none =>
        rw [hr] at hc
        simp [watch_path, hfs] at hc
    · simp [watch_path, hfs] at hc

theorem watch_path_notfound_and_order_witness :
    (watch_path (fun _ => false) (some "A") "q").1 = Except.error "File not found" ∧
    (watch_path (fun _ => true) (some "A") "p").2.head? = some (Emission.logLocation "p") ∧
    (some "A" : Option String) = some "A" ∧
    (watch_path (fun _ => true) (some "A") "p").2 =
      [Emission.logLocation "p", Emission.logUpdate "A"] :=
  ⟨((watch_path_notfound_and_order (fun _ => false) (some "A") "q").1).mpr rfl,
   ((watch_path_notfound_and_order (fun _ => true) (some "A") "p").2.2.1) rfl,
   ((watch_path_notfound_and_order (fun _ => true) (some "A") "p").2.2.2 "A" (by decide)).1,
   ((watch_path_notfound_and_order (fun _ => true) (some "A") "p").2.2.2 "A" (by decide)).2⟩

/-- C9: for a fixed platform and environment, `get_default_paths` is
deterministic and either empty (lookup failed) or lists the primary
game-client path strictly before the alternate-launcher path. -/
theorem default_paths_primary_first (os : OS) (env : Env) :
    get_default_paths os env = [] ∨
    ∃ base, envBase os env = some base ∧
      get_default_paths os env = [base ++ primaryTail os, base ++ altTail os] := by
  cases os with
  | windows =>
    cases h : env.appdata with
    | none => left; simp [get_default_paths, h]
    | some a =>
      right
      exact ⟨a, by simp [envBase, h],
        by simp [get_default_paths, h, primaryTail, altTail]⟩
  | macos =>
    cases h : env.home with
    | none => left; simp [get_default_paths, h]
    | some a =>
      right
      exact ⟨a, by simp [envBase, h],
        by simp [get_default_paths, h, primaryTail, altTail]⟩
  | other =>
    cases h : env.home with
    | none => left; simp [get_default_paths, h]
    | some a =>
      right
      exact ⟨a, by simp [envBase, h],
        by simp [get_default_paths, h, primaryTail, altTail]⟩

/-! ## Claim theorems: path resolution -/

/-- C5: `get_log_path` returns the first candidate in the platform's
ordered list that exists — every candidate before it fails the existence
check — and it returns nothing when the environment/home lookup fails or
when no candidate exists. -/
theorem get_log_path_first_existing (os : OS) (env : Env) (p : String)
    (hp : get_log_path os env = some p) :
    env.pathExists p = true ∧
    (∃ cs, log_path_candidates os env = some cs ∧
      ∃ pre post, cs = pre ++ p :: post ∧ ∀ q ∈ pre, env.pathExists q = false) ∧
    (∀ (os₂ : OS) (env₂ : Env),
      (log_path_candidates os₂ env₂ = none → get_log_path os₂ env₂ = none) ∧
      (∀ cs, log_path_candidates os₂ env₂ = some cs →
        (∀ q ∈ cs, env₂.pathExists q = false) → get_log_path os₂ env₂ = none)) := by
  obtain ⟨cs, hcs, hfind⟩ := Option.bind_eq_some.mp hp
  rw [List.find?_eq_some] at hfind
  obtain ⟨hpex, pre, post, hsplit, hpre⟩ := hfind
  refine ⟨hpex, ⟨cs, hcs, pre, post, hsplit, ?_⟩, ?_⟩
  · intro q hq
    simpa using hpre q hq
  · intro os₂ env₂
    constructor
    · intro h
      simp [get_log_path, h]
    · intro cs₂ h₂ hall
      have hnone : cs₂.find? env₂.pathExists = none := by
        rw [List.find?_eq_none]
        intro x hx
        simp [hall x hx]
      simp [get_log_path, h₂, hnone]

/-- Environment in which only the primary Windows candidate exists. -/
def envFirstExisting : Env :=
  ⟨some "C:\\U", none, fun s => s == "C:\\U\\.minecraft\\logs\\latest.log"⟩

theorem get_log_path_first_existing_witness :
    envFirstExisting.pathExists "C:\\U\\.minecraft\\logs\\latest.log" = true ∧
    (∃ cs, log_path_candidates OS.windows envFirstExisting = some cs ∧
      ∃ pre post, cs = pre ++ "C:\\U\\.minecraft\\logs\\latest.log" :: post ∧
        ∀ q ∈ pre, envFirstExisting.pathExists q = false) :=
  ⟨(get_log_path_first_existing OS.windows envFirstExisting
      "C:\\U\\.minecraft\\logs\\latest.log" (by decide)).1,
   (get_log_path_first_existing OS.windows envFirstExisting
      "C:\\U\\.minecraft\\logs\\latest.log" (by decide)).2.1⟩

/-- Environment whose home directory is the root directory `/`. -/
def envRootHome : Env := ⟨none, some "/", fun _ => true⟩

/-- Environment whose `APPDATA` is the bare drive prefix `C:`. -/
def envDriveAppdata : Env := ⟨some "C:", none, fun _ => true⟩

/-- C10 counterexample: in two environments where every path exists the
resolver's result is not an element of the candidate list.  With home
directory `/`, `PathBuf::join` adds no separator after the trailing one
while `format!` always inserts one; with `APPDATA` the bare drive prefix
`C:`, `PathBuf::push` inserts no separator after a drive prefix while
`format!` does. -/
theorem resolver_lists_disagree :
    (get_log_path OS.other envRootHome = some "/.minecraft/logs/latest.log" ∧
     "/.minecraft/logs/latest.log" ∉ get_default_paths OS.other envRootHome) ∧
    (get_log_path OS.windows envDriveAppdata = some "C:.minecraft\\logs\\latest.log" ∧
     "C:.minecraft\\logs\\latest.log" ∉ get_default_paths OS.windows envDriveAppdata) := by
  refine ⟨⟨?_, ?_⟩, ⟨?_, ?_⟩⟩ <;> decide

/-- C10 (amended): provided the environment base (`APPDATA` on Windows,
the home directory elsewhere) is non-empty, does not end in a path
separator, and is not a bare Windows drive prefix such as `C:`, the two
constructions agree: the resolver's candidate list is exactly
`get_default_paths` (same candidates, same order), and any path
`get_log_path` returns is an element of `get_default_paths`. -/
theorem resolver_agrees_with_candidates (os : OS) (env : Env) (base : String)
    (hb : envBase os env = some base)
    (hne : base.isEmpty = false)
    (hdrive : (os == OS.windows && isDrivePrefix base) = false)
    (hsep : isSep os base.back = false) :
    log_path_candidates os env = some (get_default_paths os env) ∧
    ∀ p, get_log_path os env = some p → p ∈ get_default_paths os env := by
  have hjoin : ∀ rel, joinPath os base rel = base ++ mainSep os ++ rel := by
    intro rel
    unfold joinPath
    rw [if_neg (by simp [hne]), if_neg (by simp [hdrive]), if_neg (by simp [hsep])]
  have hcs : log_path_candidates os env = some (get_default_paths os env) := by
    cases os with
    | windows =>
      have hb' : env.appdata = some base := hb
      have h₁ : ("\\" : String) ++ ".minecraft\\logs\\latest.log" =
          "\\.minecraft\\logs\\latest.log" := by decide
      have h₂ : ("\\" : String) ++ ".lunarclient\\offline\\multiver\\logs\\latest.log" =
          "\\.lunarclient\\offline\\multiver\\logs\\latest.log" := by decide
      simp [log_path_candidates, get_default_paths, hb', hjoin, mainSep,
        String.append_assoc, h₁, h₂]
    | macos =>
      have hb' : env.home = some base := hb
      have h₁ : ("/" : String) ++ "Library/Application Support/minecraft/logs/latest.log" =
          "/Library/Application Support/minecraft/logs/latest.log" := by decide
      have h₂ : ("/" : String) ++ ".lunarclient/offline/multiver/logs/latest.log" =
          "/.lunarclient/offline/multiver/logs/latest.log" := by decide
      simp [log_path_candidates, get_default_paths, hb', hjoin, mainSep,
        String.append_assoc, h₁, h₂]
    | other =>
      have hb' : env.home = some base := hb
      have h₁ : ("/" : String) ++ ".minecraft/logs/latest.log" =
          "/.minecraft/logs/latest.log" := by decide
      have h₂ : ("/" : String) ++ ".lunarclient/offline/multiver/logs/latest.log" =
          "/.lunarclient/offline/multiver/logs/latest.log" := by decide
      simp [log_path_candidates, get_default_paths, hb', hjoin, mainSep,
        String.append_assoc, h₁, h₂]
  refine ⟨hcs, ?_⟩
  intro p hp
  rw [get_log_path, hcs] at hp
  exact List.mem_of_find?_eq_some hp

/-- Environment with an ordinary home directory. -/
def envPlainHome : Env := ⟨none, some "/home/u", fun _ => true⟩

theorem resolver_agrees_with_candidates_witness :
    log_path_candidates OS.other envPlainHome =
      some (get_default_paths OS.other envPlainHome) ∧
    "/home/u/.minecraft/logs/latest.log" ∈ get_default_paths OS.other envPlainHome :=
  ⟨(resolver_agrees_with_candidates OS.other envPlainHome "/home/u" rfl
      (by decide) (by decide) (by decide)).1,
   (resolver_agrees_with_candidates OS.other envPlainHome "/home/u" rfl
      (by decide) (by decide) (by decide)).2 "/home/u/.minecraft/logs/latest.log" (by decide)⟩
